import Mathlib

/-!
Shallow embedding of the federated GraphQL execution core of this repository
(engine-v2): the response tree data model, the error-propagation pass of
`ResponseBuilder`, the part-ingestion handshake, the streaming-deserializer
error handling, the upstream-error rewriting, and the operation cache.

Each definition is translated from the corresponding Rust source file, which
is cited in its doc comment. Machine integers are modelled as `Nat`/`Int`
(no arithmetic overflow is relevant to any of the verified properties);
fallible operations (Rust panics and serde errors) are modelled with
`Option`/`Except`.
-/

/-! ### Generic list helpers (stand-ins for in-place mutation of `Vec`) -/

/-- In-place update of one element of a `Vec`, modelled functionally.
Out-of-range indices leave the list unchanged. -/
def modifyAt {α : Type} : List α → Nat → (α → α) → List α
  | [], _, _ => []
  | x :: xs, 0, f => f x :: xs
  | x :: xs, n + 1, f => x :: modifyAt xs n f

theorem length_modifyAt {α : Type} (l : List α) (n : Nat) (f : α → α) :
    (modifyAt l n f).length = l.length := by
  induction l generalizing n with
  | nil => rfl
  | cons x xs ih => cases n <;> simp [modifyAt, ih]

theorem getElem?_modifyAt {α : Type} (l : List α) (n : Nat) (f : α → α) (m : Nat) :
    (modifyAt l n f)[m]? = if m = n then l[m]?.map f else l[m]? := by
  induction l generalizing n m with
  | nil => cases n <;> cases m <;> simp [modifyAt]
  | cons x xs ih =>
    cases n with
    | zero => cases m <;> simp [modifyAt]
    | succ n =>
      cases m with
      | zero => simp [modifyAt]
      | succ m => simpa [modifyAt] using ih n m

/-! ### Response tree data model

From `src/engine/crates/engine-v2/src/response/write/mod.rs` and the response
module it builds on (`ResponseValue`, `ResponseObject`, `ResponseDataPart`,
`ResponseBuilder`, `ResponseValueId`). -/

/-- `UnpackedResponseEdge`: one step of a response path. The Rust type packs
these three cases into a tagged small integer; we model the unpacked form
directly (the packing is a bijection and every use in scope goes through
`unpack()`). -/
inductive ResponseEdge where
  | boundResponseKey (key : Nat)
  | extraFieldResponseKey (key : Nat)
  | index (i : Nat)
deriving DecidableEq

abbrev ResponsePath := List ResponseEdge

/-- `ResponseValue`. The scalar variants (`Bool`, `Int`, `BigInt`, `Float`,
`String`, raw JSON) all behave identically in every operation modelled here
(error propagation treats them as leaves, stopping its walk); they are folded
into the single `leaf` constructor carrying an abstract payload. -/
inductive ResponseValue where
  | null
  | leaf (payload : Int)
  | object (nullable : Bool) (part_id : Nat) (index : Nat)
  | list (nullable : Bool) (part_id : Nat) (offset : Nat) (length : Nat)
deriving DecidableEq

/-- `ResponseObjectId { part_id, index }`. -/
structure ResponseObjectId where
  part_id : Nat
  index : Nat
deriving DecidableEq

/-- `ResponseListId { part_id, offset, length }`. -/
structure ResponseListId where
  part_id : Nat
  offset : Nat
  length : Nat
deriving DecidableEq

/-- `ResponseValueId` (write/mod.rs): the address of one mutable value slot. -/
inductive ResponseValueId where
  | objectField (object_id : ResponseObjectId) (field_position : Nat)
  | listItem (list_id : ResponseListId) (index : Nat)
deriving DecidableEq

/-- A `ResponseObject` is an ordered list of `(ResponseEdge, ResponseValue)`
pairs (spec §3 data model; the Rust struct exposes `field_position`,
indexing by position, and `extend`). -/
abbrev ResponseObject := List (ResponseEdge × ResponseValue)

/-- `ResponseDataPart`: a per-plan arena of objects and lists. -/
structure ResponseDataPart where
  id : Nat
  objects : List ResponseObject
  lists : List ResponseValue
deriving DecidableEq

/-- `ResponseDataPart::is_empty`. -/
def ResponseDataPart.is_empty (p : ResponseDataPart) : Bool :=
  p.objects.isEmpty && p.lists.isEmpty

/-- A small JSON value model (for `serde_json::Value` as it is used by the
upstream-error rewriting: null test, string/array/u64 accessors). Numbers are
modelled as integers; the claims in scope only inspect integral path
segments. -/
inductive Json where
  | null
  | bool (b : Bool)
  | num (n : Int)
  | str (s : String)
  | arr (elems : List Json)
  | obj (fields : List (String × Json))

/-- `serde_json::Value::is_null`. -/
def Json.isNull : Json → Bool
  | .null => true
  | _ => false

/-- `serde_json::Value::as_u64` (non-negative integers only). -/
def Json.as_u64 : Json → Option Nat
  | .num n => if 0 ≤ n then some n.toNat else none
  | _ => none

/-- `serde_json::Value::as_str`. -/
def Json.as_str : Json → Option String
  | .str s => some s
  | _ => none

/-- `serde_json::Value::as_array`. -/
def Json.as_array : Json → Option (List Json)
  | .arr elems => some elems
  | _ => none

/-- `Location` (operation source location, line/column). -/
structure Location where
  line : Nat
  column : Nat
deriving DecidableEq

/-- `GraphqlError` (response/error.rs): message, source locations, optional
response path, extensions map. `BTreeMap<String, Value>` is modelled as a
key-sorted association list (see `btreeInsert`). -/
structure GraphqlError where
  message : String
  locations : List Location
  path : Option ResponsePath
  extensions : List (String × Json)

/-- `ResponseBuilder` (write/mod.rs): root reference (None once an error
propagated to the root), the vector of parts, and the flat error list. -/
structure ResponseBuilder where
  root : Option (ResponseObjectId × Nat)
  parts : List ResponseDataPart
  errors : List GraphqlError

/-- Object lookup `self[object_id]`. Rust panics when the id is dangling;
the walk below treats a failed lookup as an early return, which only differs
from the source on builders that violate the arena invariant (spec §3). -/
def ResponseBuilder.getObject (b : ResponseBuilder) (oid : ResponseObjectId) : Option ResponseObject :=
  b.parts[oid.part_id]?.bind fun p => p.objects[oid.index]?

/-- `ResponseObject::field_position(edge)`: position of the first field whose
edge equals `edge`. -/
def field_position : ResponseObject → ResponseEdge → Option Nat
  | [], _ => none
  | f :: fs, edge => if f.fst = edge then some 0 else (field_position fs edge).map (· + 1)

/-- List-item lookup `self[list_id].get(index)`: the list id denotes the
slice `lists[offset..offset + length]` of its part. -/
def ResponseBuilder.getListItem (b : ResponseBuilder) (lid : ResponseListId) (i : Nat) : Option ResponseValue :=
  if i < lid.length then
    b.parts[lid.part_id]?.bind fun p => p.lists[lid.offset + i]?
  else none

/-- The value currently stored at a `ResponseValueId`. -/
def ResponseBuilder.valueAtId (b : ResponseBuilder) : ResponseValueId → Option ResponseValue
  | .objectField oid pos => (b.getObject oid).bind fun o => o[pos]?.map (·.snd)
  | .listItem lid i => b.getListItem lid i

/-- Writing `ResponseValue::Null` into the slot named by a `ResponseValueId`
(the two assignment arms at the end of `propagate_error`). The field's edge
is preserved; only its value changes. -/
def ResponseBuilder.setValueNull (b : ResponseBuilder) : ResponseValueId → ResponseBuilder
  | .objectField oid pos =>
    { b with parts := modifyAt b.parts oid.part_id fun p =>
        { p with objects := modifyAt p.objects oid.index fun o =>
            modifyAt o pos fun f => (f.fst, ResponseValue.null) } }
  | .listItem lid i =>
    { b with parts := modifyAt b.parts lid.part_id fun p =>
        { p with lists := modifyAt p.lists (lid.offset + i) fun _ => ResponseValue.null } }

/-! ### Error propagation (`ResponseBuilder::propagate_error`, write/mod.rs) -/

/-- The `previous` cursor of the propagation loop:
`Either<ResponseObjectId, ResponseListId>`. -/
inductive Cursor where
  | obj (id : ResponseObjectId)
  | lst (id : ResponseListId)
deriving DecidableEq

/-- The object arm of the resolution in `propagate_error`'s loop: find the
field position for the edge and read its value. -/
def resolveObjectStep (b : ResponseBuilder) (oid : ResponseObjectId) (edge : ResponseEdge) :
    Option (ResponseValueId × ResponseValue) :=
  (b.getObject oid).bind fun o =>
    (field_position o edge).bind fun pos =>
      o[pos]?.map fun f => (ResponseValueId.objectField oid pos, f.snd)

/-- The list arm of the resolution in `propagate_error`'s loop. -/
def resolveListStep (b : ResponseBuilder) (lid : ResponseListId) (i : Nat) :
    Option (ResponseValueId × ResponseValue) :=
  (b.getListItem lid i).map fun v => (ResponseValueId.listItem lid i, v)

/-- One iteration of the resolution in `propagate_error`'s loop: match the
cursor against the edge kind and look the value up. `none` models every
early `return` of the loop body (missing field, out-of-range index,
mismatched cursor/edge kinds). -/
def resolveStep (b : ResponseBuilder) (prev : Cursor) (edge : ResponseEdge) :
    Option (ResponseValueId × ResponseValue) :=
  match prev, edge with
  | .obj oid, .boundResponseKey _ | .obj oid, .extraFieldResponseKey _ =>
    resolveObjectStep b oid edge
  | .lst lid, .index i => resolveListStep b lid i
  | _, _ => none

/-- Result of the propagation walk: `abort` models the early `return`s
(nothing is mutated), `finish ln` models falling through to the code after
the loop with `last_nullable = ln`. -/
inductive WalkResult where
  | abort
  | finish (last_nullable : Option ResponseValueId)
deriving DecidableEq

/-- The loop of `propagate_error`: walk the path from the cursor, remembering
in `ln` the most recent (deepest so far) value declared nullable. A null
value aborts (early return); a non-container leaf breaks out of the loop. -/
def walk (b : ResponseBuilder) : Cursor → List ResponseEdge → Option ResponseValueId → WalkResult
  | _, [], ln => .finish ln
  | prev, edge :: rest, ln =>
    match resolveStep b prev edge with
    | none => .abort
    | some (id, v) =>
      if v = ResponseValue.null then .abort
      else
        match v with
        | .object nullable part_id idx =>
          walk b (.obj ⟨part_id, idx⟩) rest (if nullable then some id else ln)
        | .list nullable part_id offset length =>
          walk b (.lst ⟨part_id, offset, length⟩) rest (if nullable then some id else ln)
        | _ => .finish ln

/-- `ResponseBuilder::propagate_error` (write/mod.rs lines 137-218): find the
last nullable element along the path and null it; if there is none, null the
root. Early returns leave the builder untouched. -/
def propagate_error (b : ResponseBuilder) (path : List ResponseEdge) : ResponseBuilder :=
  match b.root with
  | none => b
  | some (root, _) =>
    match walk b (.obj root) path none with
    | .abort => b
    | .finish none => { b with root := none }
    | .finish (some last_nullable) => b.setValueNull last_nullable

/-! ### Declarative reading of the propagation rule (spec §4.4.2)

`propagate_error` tracks the deepest nullable ancestor in an accumulator
while walking. The definitions below express the same rule declaratively —
collect the trace of traversed values, filter the nullable ones, take the
last — so that the equivalence theorem relates the implementation to the
specification's phrasing. -/

/-- Whether a `ResponseValue` is declared nullable (only containers carry the
flag). -/
def isNullableValue : ResponseValue → Bool
  | .object true _ _ => true
  | .list true _ _ _ => true
  | _ => false

/-- The deepest (last) entry of a walk trace whose value is declared
nullable. -/
def deepestNullable : List (ResponseValueId × ResponseValue) → Option ResponseValueId
  | [] => none
  | s :: rest =>
    match deepestNullable rest with
    | some v => some v
    | none => if isNullableValue s.snd then some s.fst else none

/-- Combine the deepest nullable entry of a trace suffix with the
accumulator holding the deepest nullable entry seen before it. -/
def lastNullableOf (steps : List (ResponseValueId × ResponseValue))
    (ln : Option ResponseValueId) : Option ResponseValueId :=
  match deepestNullable steps with
  | some v => some v
  | none => ln

/-- The trace of slots visited by the propagation walk: `none` when the walk
aborts early (null value on the way, unresolvable step), `some steps`
when it completes (path exhausted or a scalar leaf reached). -/
def walkTrace (b : ResponseBuilder) : Cursor → List ResponseEdge → Option (List (ResponseValueId × ResponseValue))
  | _, [] => some []
  | prev, edge :: rest =>
    match resolveStep b prev edge with
    | none => none
    | some (id, v) =>
      if v = ResponseValue.null then none
      else
        match v with
        | .object _ part_id idx =>
          (walkTrace b (.obj ⟨part_id, idx⟩) rest).map fun t => (id, v) :: t
        | .list _ part_id offset length =>
          (walkTrace b (.lst ⟨part_id, offset, length⟩) rest).map fun t => (id, v) :: t
        | _ => some [(id, v)]

/-- Modelled from the spec (§4.4.2), amended by the counterexample below:
walk the error path from the root; if the walk meets an already-null value or
an unresolvable step, leave the builder unchanged; otherwise replace the
deepest traversed value declared nullable with Null, and if no traversed
value is nullable, set the root to None. -/
def propagate_error_spec (b : ResponseBuilder) (path : List ResponseEdge) : ResponseBuilder :=
  match b.root with
  | none => b
  | some (root, _) =>
    match walkTrace b (.obj root) path with
    | none => b
    | some steps =>
      match deepestNullable steps with
      | some vid => b.setValueNull vid
      | none => { b with root := none }

/-- The traversal the original claim C1 describes: follow the path through
the tree, collecting every resolvable value, with no early stop at null
values (a null or leaf value simply has no children to continue into). Used
only to state the counterexample against the unamended claim. -/
def claimTrace (b : ResponseBuilder) : Cursor → List ResponseEdge → List (ResponseValueId × ResponseValue)
  | _, [] => []
  | prev, edge :: rest =>
    match resolveStep b prev edge with
    | none => []
    | some (id, v) =>
      match v with
      | .object _ part_id idx => (id, v) :: claimTrace b (.obj ⟨part_id, idx⟩) rest
      | .list _ part_id offset length => (id, v) :: claimTrace b (.lst ⟨part_id, offset, length⟩) rest
      | _ => [(id, v)]

/-- The underlying storage cell a `ResponseValueId` addresses. Two distinct
`ResponseValueId`s can alias the same cell (overlapping list slices), so the
idempotence proof reasons about cells, not ids. -/
inductive CellAddr where
  | fieldCell (part_id object_index position : Nat)
  | itemCell (part_id position : Nat)
deriving DecidableEq

/-- Address of the cell written by `setValueNull` for the given id. -/
def cellOf : ResponseValueId → CellAddr
  | .objectField oid pos => .fieldCell oid.part_id oid.index pos
  | .listItem lid i => .itemCell lid.part_id (lid.offset + i)

/-! ### Part ingestion (`ResponseBuilder::ingest`, write/mod.rs lines 93-119) -/

/-- `ResponseObjectRef { id, path, definition_id }`. -/
structure ResponseObjectRef where
  id : ResponseObjectId
  path : List ResponseEdge
  definition_id : Nat
deriving DecidableEq

/-- `UpdateSlot` (write/mod.rs): per boundary object, either still reserved,
or the fields to extend it with, or a pending error propagation. -/
inductive UpdateSlot where
  | reserved
  | fields (fields : List (ResponseEdge × ResponseValue))
  | error
deriving DecidableEq

/-- The contents of a `ResponsePart` as handed back to `ingest`
(`ResponsePartInner`, minus the RefCell/Rc plumbing which is single-threaded
interior mutability only). `plan_boundaries` pairs each boundary id with the
object refs produced for it. -/
structure ResponsePart where
  data : ResponseDataPart
  root_response_objects : List ResponseObjectRef
  errors : List GraphqlError
  updates : List UpdateSlot
  error_paths_to_propagate : List (List ResponseEdge)
  plan_boundaries : List (Nat × List ResponseObjectRef)

/-- `self[obj_ref.id].extend(fields)`: append fields to an existing object.
(Rust panics on a dangling id; `modifyAt` leaves such a builder unchanged.) -/
def ResponseBuilder.extendObject (b : ResponseBuilder) (oid : ResponseObjectId)
    (fields : List (ResponseEdge × ResponseValue)) : ResponseBuilder :=
  { b with parts := modifyAt b.parts oid.part_id fun p =>
      { p with objects := modifyAt p.objects oid.index fun o => o ++ fields } }

/-- One iteration of the update loop in `ingest`. `UpdateSlot::Reserved`
hits `todo!()` in the source (a panic), modelled as `none`. -/
def applyUpdate (b : ResponseBuilder) : UpdateSlot × ResponseObjectRef → Option ResponseBuilder
  | (.reserved, _) => none
  | (.fields fields, obj_ref) => some (b.extendObject obj_ref.id fields)
  | (.error, obj_ref) => some (propagate_error b obj_ref.path)

/-- The whole update loop of `ingest` over `updates.zip(root_response_objects)`. -/
def applyUpdates : ResponseBuilder → List (UpdateSlot × ResponseObjectRef) → Option ResponseBuilder
  | b, [] => some b
  | b, u :: us => (applyUpdate b u).bind fun b2 => applyUpdates b2 us

/-- The error-path loop of `ingest`. -/
def applyErrorPaths (b : ResponseBuilder) (paths : List (List ResponseEdge)) : ResponseBuilder :=
  paths.foldl propagate_error b

/-- The first two statements of `ingest` acting on the builder: overwrite the
reserved (empty) slot with the delivered data and append the part's errors. -/
def installPart (b : ResponseBuilder) (part : ResponsePart) : ResponseBuilder :=
  { b with
    parts := modifyAt b.parts part.data.id fun _ => part.data,
    errors := b.errors ++ part.errors }

/-- `ResponseBuilder::ingest`: requires the reserved slot to still be empty
(`assert!`, modelled as `none` on violation, as are the slot-index panic and
the `todo!()` on a still-reserved update slot); installs the data, appends
errors, applies the update slots, propagates queued error paths, and returns
the plan-boundary hand-offs. -/
def ingest (b : ResponseBuilder) (part : ResponsePart) :
    Option (ResponseBuilder × List (Nat × List ResponseObjectRef)) :=
  match b.parts[part.data.id]? with
  | none => none
  | some reservation =>
    if reservation.is_empty then
      match applyUpdates (installPart b part) (part.updates.zip part.root_response_objects) with
      | none => none
      | some b2 => some (applyErrorPaths b2 part.error_paths_to_propagate, part.plan_boundaries)
    else none

/-! ### `UpdateSeed` on null upstream data
(response/write/deserialize/mod.rs lines 100-148, the `Ok(None)` branch) -/

/-- The data of a `CollectedField` used by the null-data branch: its response
edge, whether its wrapping is required, and its response/expected keys (for
the error message). -/
structure CollectedField where
  edge : ResponseEdge
  required : Bool
  response_key : Nat
  expected_key : Nat
deriving DecidableEq

/-- `SeedContext::missing_field_error_message` (quotes around field names
elided). Keys index into the response-keys table. -/
def missing_field_error_message (response_keys : List String) (field : CollectedField) : String :=
  let name := fun k => response_keys[k]?.getD ""
  if field.response_key = field.expected_key then
    "Error decoding response from upstream: Missing required field named " ++ name field.expected_key
  else
    "Error decoding response from upstream: Missing required field named " ++ name field.response_key
      ++ " (expected: " ++ name field.expected_key ++ ")"

/-- What the writer is left with after `UpdateSeed::deserialize` handles a
null `data` value: either the root-object fields to write, or a single
propagated error (`ResponseWriter::propagate_error` pushes the error and sets
the update slot to `Error`). -/
inductive UpdateOutcome where
  | wroteFields (fields : List (ResponseEdge × ResponseValue))
  | propagatedError (error : GraphqlError)

/-- Errors pushed by an `UpdateOutcome`. -/
def outcomeErrors : UpdateOutcome → List GraphqlError
  | .wroteFields _ => []
  | .propagatedError e => [e]

/-- The update slot the outcome leaves behind. -/
def outcomeSlot : UpdateOutcome → UpdateSlot
  | .wroteFields fields => .fields fields
  | .propagatedError _ => .error

/-- The field loop of the `Ok(None)` branch: nullable fields accumulate as
Null; the first required field aborts the loop with one propagated error at
`response_path().child(field.edge)` and the accumulated fields are dropped. -/
def updateSeedOnNullDataGo (response_keys : List String) (ctx_path : List ResponseEdge)
    (acc : List (ResponseEdge × ResponseValue)) : List CollectedField → UpdateOutcome
  | [] => .wroteFields acc
  | field :: rest =>
    if field.required then
      .propagatedError
        { message := missing_field_error_message response_keys field,
          locations := [],
          path := some (ctx_path ++ [field.edge]),
          extensions := [] }
    else
      updateSeedOnNullDataGo response_keys ctx_path (acc ++ [(field.edge, ResponseValue.null)]) rest

/-- `UpdateSeed::deserialize`, `Ok(None)` branch: the upstream `data` value
was null. -/
def updateSeedOnNullData (response_keys : List String) (ctx_path : List ResponseEdge)
    (fields : List CollectedField) : UpdateOutcome :=
  updateSeedOnNullDataGo response_keys ctx_path [] fields

/-! ### `FieldSeed` failure handling
(response/write/deserialize/field.rs lines 97-115 and deserialize/mod.rs
lines 134-144) -/

/-- The per-ingestion mutable state the failure handling touches: the
`propagating_error` flag of the `SeedContext` and the part's error list. -/
structure SeedState where
  propagating_error : Bool
  errors : List GraphqlError

/-- What a `FieldSeed` knows when its inner deserialization fails: the
context's current response path, its field's edge, the field's source
locations and the serde error message. -/
structure FieldFrame where
  path : List ResponseEdge
  edge : ResponseEdge
  locations : List Location
  message : String

/-- The `map_err` closure of `FieldSeed::deserialize`: the first failure
(flag still false) flips the flag and pushes one error at the current path
extended with the field's edge, carrying the field's locations; when the
flag is already set (`fetch_or` returns true) nothing is pushed. -/
def fieldSeedOnError (st : SeedState) (frame : FieldFrame) : SeedState :=
  if st.propagating_error then st
  else
    { propagating_error := true,
      errors := st.errors ++
        [{ message := frame.message,
           locations := frame.locations,
           path := some (frame.path ++ [frame.edge]),
           extensions := [] }] }

/-- A failure bubbling outward through the `map_err` of every enclosing
`FieldSeed`, innermost first. -/
def propagateFieldError (st : SeedState) (frames : List FieldFrame) : SeedState :=
  frames.foldl fieldSeedOnError st

/-- The `Err` branch of `UpdateSeed::deserialize` at the top of the seed
stack: first failure propagates one error at the current path, otherwise
only `continue_error_propagation` runs (update slot set to `Error`, no new
error). Returns the state and the update slot written. -/
def updateSeedOnError (st : SeedState) (ctx_path : List ResponseEdge) (message : String) :
    SeedState × UpdateSlot :=
  if st.propagating_error then (st, .error)
  else
    ({ propagating_error := true,
       errors := st.errors ++
         [{ message := message, locations := [], path := some ctx_path, extensions := [] }] },
     .error)

/-! ### `_entities` array ingestion
(sources/graphql/deserialize/entities.rs, `EntitiesSeed::visit_seq`) -/

/-- `EntitiesSeed::visit_seq`. `seeds` counts the boundary objects still to
fill (`response_part.next_seed` hands out one writer per remaining object);
`seedOk x` models `seq.next_element_seed(seed)` succeeding on element `x`
(the seed pushes its own errors through the `FieldSeed` mechanism above);
`errors` is the part's error-message list. The function consumes the whole
upstream list: a seed failure drains the remainder and returns the error;
leftover elements after the seeds run out append exactly one
"Received more entities than expected" error and are drained. -/
def entitiesVisitSeq {α : Type} (seedOk : α → Bool) :
    Nat → List α → List String → List String × Except Unit Unit
  | Nat.succ seeds, x :: xs, errors =>
    if seedOk x then entitiesVisitSeq seedOk seeds xs errors
    else (errors, .error ())
  | Nat.succ _, [], errors => (errors, .ok ())
  | 0, [], errors => (errors, .ok ())
  | 0, _ :: _, errors => (errors ++ ["Received more entities than expected"], .ok ())

/-! ### Upstream error rewriting
(sources/graphql/deserialize/errors.rs) -/

/-- `SubgraphGraphqlError` as deserialized from an upstream `errors` entry;
`locations`, `path` and `extensions` default to JSON null when absent. -/
structure SubgraphGraphqlError where
  message : String
  locations : Json
  path : Json
  extensions : Json

/-- `ResponseKeys::get`: position of a key in the deduplicated response-keys
table. -/
def keyIndex : List String → String → Option Nat
  | [], _ => none
  | k :: ks, key => if k = key then some 0 else (keyIndex ks key).map (· + 1)

/-- `BTreeMap::insert` on a key-sorted association list. -/
def btreeInsert : List (String × Json) → String → Json → List (String × Json)
  | [], k, v => [(k, v)]
  | (k0, v0) :: rest, k, v =>
    if k < k0 then (k, v) :: (k0, v0) :: rest
    else if k = k0 then (k, v) :: rest
    else (k0, v0) :: btreeInsert rest k v

/-- `BTreeMap` lookup. -/
def extLookup : List (String × Json) → String → Option Json
  | [], _ => none
  | (k0, v0) :: rest, k => if k0 = k then some v0 else extLookup rest k

/-- The edge loop of `RootErrorPathConverter::convert`: integral segments
become list-index edges; string segments must resolve in the response-keys
table and become synthesized extra-field edges; any other segment (or an
unresolvable string) fails the whole conversion. -/
def convertEdges (response_keys : List String) : List Json → Option (List ResponseEdge)
  | [] => some []
  | e :: es =>
    match e.as_u64 with
    | some i => (convertEdges response_keys es).map fun out => ResponseEdge.index i :: out
    | none =>
      match e.as_str with
      | none => none
      | some key =>
        match keyIndex response_keys key with
        | none => none
        | some response_key =>
          (convertEdges response_keys es).map fun out =>
            ResponseEdge.extraFieldResponseKey response_key :: out

/-- `RootErrorPathConverter::convert` (errors.rs lines 41-62): `None` unless
the upstream path is an array whose every segment converts. -/
def RootErrorPathConverter.convert (response_keys : List String) (path : Json) :
    Option (List ResponseEdge) :=
  (path.as_array).bind fun edges => convertEdges response_keys edges

/-- The per-error rewriting inside `GraphqlErrorsSeed::deserialize`
(errors.rs lines 77-95): prefix the message, convert the path, and stash the
upstream locations/path/extensions under `upstream_*` extension keys —
the path only when it is non-null and did not convert. -/
def rewriteUpstreamError (response_keys : List String) (error : SubgraphGraphqlError) :
    GraphqlError :=
  let ext0 : List (String × Json) := []
  let ext1 := if error.locations.isNull then ext0
              else btreeInsert ext0 "upstream_locations" error.locations
  let path := RootErrorPathConverter.convert response_keys error.path
  let ext2 := if path.isNone && !error.path.isNull then btreeInsert ext1 "upstream_path" error.path
              else ext1
  let ext3 := if error.extensions.isNull then ext2
              else btreeInsert ext2 "upstream_extensions" error.extensions
  { message := "Upstream error: " ++ error.message,
    locations := [],
    path := path,
    extensions := ext3 }

/-- `GraphqlErrorsSeed::deserialize` (errors.rs lines 65-98): rewrite every
upstream error, push them onto the part, and return the count. -/
def GraphqlErrorsSeed.deserialize (response_keys : List String)
    (errors : List SubgraphGraphqlError) : List GraphqlError × Nat :=
  (errors.map (rewriteUpstreamError response_keys), errors.length)

/-! ### Operation cache (`Engine::cached_prepare_operation`, engine.rs
lines 117-135) -/

/-- A bound `Operation` is opaque to the cache logic; it only matters that
two of them can differ. -/
structure Operation where
  opId : Nat
deriving DecidableEq

/-- The engine's `op_cache: RwLock<FnvHashMap<String, Arc<Operation>>>`,
modelled as an association list keyed by the exact query text. -/
abbrev OpCache := List (String × Operation)

/-- Map lookup by query text. -/
def opCacheGet : OpCache → String → Option Operation
  | [], _ => none
  | (q0, op0) :: rest, q => if q0 = q then some op0 else opCacheGet rest q

/-- `HashMap::insert`: overwrites any existing entry for the key (last
writer wins). -/
def opCacheInsert : OpCache → String → Operation → OpCache
  | [], q, op => [(q, op)]
  | (q0, op0) :: rest, q, op =>
    if q0 = q then (q, op) :: rest else (q0, op0) :: opCacheInsert rest q op

/-- Result of `cached_prepare_operation`: the returned value, the cache
afterwards, and how many times `prepare_operation` (parse + bind) ran. -/
structure CachedPrepareOutcome where
  result : Except GraphqlError Operation
  cache : OpCache
  prepareCalls : Nat

/-- `Engine::cached_prepare_operation`. `prepare` stands for
`prepare_operation` (`parse_operation` followed by `Operation::build`, both
outside this module); it is a pure function of the query text for a fixed
schema. -/
def cached_prepare_operation (prepare : String → Except GraphqlError Operation)
    (cache : OpCache) (query : String) : CachedPrepareOutcome :=
  match opCacheGet cache query with
  | some operation => ⟨.ok operation, cache, 0⟩
  | none =>
    match prepare query with
    | .ok operation => ⟨.ok operation, opCacheInsert cache query operation, 1⟩
    | .error e => ⟨.error e, cache, 1⟩

/-! ### Decode-failure reporting
(sources/graphql/deserialize/response.rs lines 135-217) -/

/-- `report_error_if_no_others` (response.rs lines 207-217): push the generic
error at the given path only when the part holds no error yet. -/
def report_error_if_no_others (errors : List GraphqlError) (err_path : List ResponseEdge)
    (message : String) : List GraphqlError :=
  if errors.isEmpty then
    errors ++ [{ message := message, locations := [], path := some err_path, extensions := [] }]
  else errors

/-- The two visit arms of `InfaillibleNullableSeed` (response.rs lines
165-195): run the data seed (on `None` for `visit_none`/`visit_unit`, on the
value for `visit_some`); a seed failure is reported through
`report_error_if_no_others` with the "Upstream data error: " prefix; the
returned Bool is `data_is_null` (true for the null arm). -/
def InfaillibleNullableSeed.visit (errors : List GraphqlError)
    (root_err_path : List ResponseEdge) (dataIsNull : Bool)
    (seedResult : Except String Unit) : List GraphqlError × Bool :=
  match seedResult with
  | .ok _ => (errors, dataIsNull)
  | .error e =>
    (report_error_if_no_others errors root_err_path ("Upstream data error: " ++ e), dataIsNull)

/-! ### Concrete instances used by counterexamples -/

/-- A builder whose root object has one nullable-object field (key 0) whose
child object's field (key 1) is already Null. -/
def cexPropagateBuilder : ResponseBuilder :=
  { root := some (⟨0, 0⟩, 7),
    parts := [{ id := 0,
                objects := [[(ResponseEdge.boundResponseKey 0, ResponseValue.object true 0 1)],
                            [(ResponseEdge.boundResponseKey 1, ResponseValue.null)]],
                lists := [] }],
    errors := [] }

/-- The error path walking through the nullable object into the null field. -/
def cexPropagatePath : List ResponseEdge :=
  [ResponseEdge.boundResponseKey 0, ResponseEdge.boundResponseKey 1]

/-- A builder whose root object has one nullable-object field (key 0) whose
child object carries two scalar fields (keys 1 and 2): two sibling error
paths through keys 1 and 2 share the same deepest nullable ancestor. -/
def cexSiblingBuilder : ResponseBuilder :=
  { root := some (⟨0, 0⟩, 7),
    parts := [{ id := 0,
                objects := [[(ResponseEdge.boundResponseKey 0, ResponseValue.object true 0 1)],
                            [(ResponseEdge.boundResponseKey 1, ResponseValue.leaf 1),
                             (ResponseEdge.boundResponseKey 2, ResponseValue.leaf 2)]],
                lists := [] }],
    errors := [] }

/-- A root selection set with two required fields. -/
def cexNullDataFields : List CollectedField :=
  [{ edge := ResponseEdge.boundResponseKey 0, required := true, response_key := 0, expected_key := 0 },
   { edge := ResponseEdge.boundResponseKey 1, required := true, response_key := 1, expected_key := 1 }]

/-- An upstream error whose path resolves completely in the response-keys
table `["a"]`. -/
def cexResolvableUpstreamError : SubgraphGraphqlError :=
  { message := "boom", locations := Json.null,
    path := Json.arr [Json.str "a"], extensions := Json.null }

/-- An upstream error whose path has a first segment that resolves in the
response-keys table `["a"]` and a second segment that does not. -/
def cexUnresolvableUpstreamError : SubgraphGraphqlError :=
  { message := "boom", locations := Json.null,
    path := Json.arr [Json.str "a", Json.str "missing"], extensions := Json.null }

/-! ### Helper lemmas about the builder operations -/

theorem setValueNull_root (b : ResponseBuilder) (vid : ResponseValueId) :
    (b.setValueNull vid).root = b.root := by
  cases vid <;> rfl

theorem setValueNull_errors (b : ResponseBuilder) (vid : ResponseValueId) :
    (b.setValueNull vid).errors = b.errors := by
  cases vid <;> rfl

theorem setValueNull_parts_length (b : ResponseBuilder) (vid : ResponseValueId) :
    (b.setValueNull vid).parts.length = b.parts.length := by
  cases vid <;> simp [ResponseBuilder.setValueNull, length_modifyAt]

theorem propagate_error_errors (b : ResponseBuilder) (path : List ResponseEdge) :
    (propagate_error b path).errors = b.errors := by
  unfold propagate_error
  cases hr : b.root with
  | none => rfl
  | some root =>
    obtain ⟨rootId, t⟩ := root
    cases hw : walk b (.obj rootId) path none with
    | abort => simp [hw]
    | finish ln =>
      cases ln with
      | none => simp [hw]
      | some vid => simp [hw, setValueNull_errors]

theorem propagate_error_parts_length (b : ResponseBuilder) (path : List ResponseEdge) :
    (propagate_error b path).parts.length = b.parts.length := by
  unfold propagate_error
  cases hr : b.root with
  | none => rfl
  | some root =>
    obtain ⟨rootId, t⟩ := root
    cases hw : walk b (.obj rootId) path none with
    | abort => simp [hw]
    | finish ln =>
      cases ln with
      | none => simp [hw]
      | some vid => simp [hw, setValueNull_parts_length]

theorem field_position_modifyAt (o : ResponseObject) (n : Nat)
    (g : ResponseEdge × ResponseValue → ResponseEdge × ResponseValue)
    (hg : ∀ f, (g f).fst = f.fst) (edge : ResponseEdge) :
    field_position (modifyAt o n g) edge = field_position o edge := by
  induction o generalizing n with
  | nil => cases n <;> rfl
  | cons f fs ih =>
    cases n with
    | zero => simp [modifyAt, field_position, hg]
    | succ n => simp [modifyAt, field_position, ih]

theorem getObject_setValueNull_objectField (b : ResponseBuilder) (oid2 : ResponseObjectId)
    (pos2 : Nat) (oid : ResponseObjectId) :
    (b.setValueNull (.objectField oid2 pos2)).getObject oid =
      if oid = oid2 then
        (b.getObject oid).map fun o => modifyAt o pos2 fun f => (f.fst, ResponseValue.null)
      else b.getObject oid := by
  obtain ⟨p1, i1⟩ := oid
  obtain ⟨p2, i2⟩ := oid2
  unfold ResponseBuilder.setValueNull ResponseBuilder.getObject
  by_cases h1 : p1 = p2
  · subst h1
    by_cases h2 : i1 = i2
    · subst h2
      cases hp : b.parts[p1]? with
      | none => simp [getElem?_modifyAt, hp]
      | some part => simp [getElem?_modifyAt, hp]
    · cases hp : b.parts[p1]? with
      | none => simp [getElem?_modifyAt, hp, ResponseObjectId.mk.injEq, h2]
      | some part => simp [getElem?_modifyAt, hp, ResponseObjectId.mk.injEq, h2]
  · cases hp : b.parts[p1]? with
    | none => simp [getElem?_modifyAt, hp, ResponseObjectId.mk.injEq, h1]
    | some part => simp [getElem?_modifyAt, hp, ResponseObjectId.mk.injEq, h1]

theorem getObject_setValueNull_listItem (b : ResponseBuilder) (lid2 : ResponseListId)
    (i2 : Nat) (oid : ResponseObjectId) :
    (b.setValueNull (.listItem lid2 i2)).getObject oid = b.getObject oid := by
  unfold ResponseBuilder.setValueNull ResponseBuilder.getObject
  by_cases h1 : oid.part_id = lid2.part_id
  · cases hp : b.parts[lid2.part_id]? with
    | none => simp [getElem?_modifyAt, hp, h1]
    | some part => simp [getElem?_modifyAt, hp, h1]
  · simp [getElem?_modifyAt, h1]

theorem getListItem_setValueNull_objectField (b : ResponseBuilder) (oid2 : ResponseObjectId)
    (pos2 : Nat) (lid : ResponseListId) (i : Nat) :
    (b.setValueNull (.objectField oid2 pos2)).getListItem lid i = b.getListItem lid i := by
  unfold ResponseBuilder.setValueNull ResponseBuilder.getListItem
  by_cases hlen : i < lid.length
  · by_cases h1 : lid.part_id = oid2.part_id
    · cases hp : b.parts[oid2.part_id]? with
      | none => simp [getElem?_modifyAt, hp, h1, hlen]
      | some part => simp [getElem?_modifyAt, hp, h1, hlen]
    · simp [getElem?_modifyAt, h1, hlen]
  · simp [hlen]

theorem getListItem_setValueNull_listItem (b : ResponseBuilder) (lid2 : ResponseListId)
    (i2 : Nat) (lid : ResponseListId) (i : Nat) :
    (b.setValueNull (.listItem lid2 i2)).getListItem lid i =
      if lid.part_id = lid2.part_id ∧ lid.offset + i = lid2.offset + i2 then
        (b.getListItem lid i).map fun _ => ResponseValue.null
      else b.getListItem lid i := by
  unfold ResponseBuilder.setValueNull ResponseBuilder.getListItem
  by_cases hlen : i < lid.length
  · by_cases h1 : lid.part_id = lid2.part_id
    · by_cases h2 : lid.offset + i = lid2.offset + i2
      · cases hp : b.parts[lid2.part_id]? with
        | none => simp [getElem?_modifyAt, hp, h1, h2, hlen]
        | some part => simp [getElem?_modifyAt, hp, h1, h2, hlen]
      · cases hp : b.parts[lid2.part_id]? with
        | none => simp [getElem?_modifyAt, hp, h1, h2, hlen]
        | some part => simp [getElem?_modifyAt, hp, h1, h2, hlen]
    · simp [getElem?_modifyAt, h1, hlen]
  · simp [hlen]

theorem resolveObjectStep_setValueNull (b : ResponseBuilder) (vid : ResponseValueId)
    (oid : ResponseObjectId) (edge : ResponseEdge) :
    resolveObjectStep (b.setValueNull vid) oid edge =
      (resolveObjectStep b oid edge).map fun s =>
        (s.fst, if cellOf s.fst = cellOf vid then ResponseValue.null else s.snd) := by
  cases vid with
  | objectField oid2 pos2 =>
    unfold resolveObjectStep
    rw [getObject_setValueNull_objectField]
    by_cases ho : oid = oid2
    · subst ho
      cases hObj : b.getObject oid with
      | none => simp
      | some o =>
        simp only [eq_self_iff_true, if_true, if_pos, Option.some_bind, Option.map_some']
        rw [field_position_modifyAt o pos2 (fun f => (f.fst, ResponseValue.null)) (fun f => rfl)]
        cases hfp : field_position o edge with
        | none => simp
        | some pos =>
          simp only [Option.some_bind]
          rw [getElem?_modifyAt]
          by_cases hp : pos = pos2
          · subst hp
            simp only [eq_self_iff_true, if_true, if_pos]
            cases hget : o[pos]? with
            | none => simp
            | some f => simp [cellOf]
          · simp only [if_neg hp]
            cases hget : o[pos]? with
            | none => simp
            | some f => simp [cellOf, hp]
    · simp only [if_neg ho]
      cases hObj : b.getObject oid with
      | none => simp
      | some o =>
        simp only [Option.some_bind, Option.map_some']
        cases hfp : field_position o edge with
        | none => simp
        | some pos =>
          simp only [Option.some_bind, Option.map_bind]
          cases hget : o[pos]? with
          | none => simp
          | some f =>
            have hc : cellOf (ResponseValueId.objectField oid pos) ≠
                cellOf (ResponseValueId.objectField oid2 pos2) := by
              simp only [cellOf, ne_eq, CellAddr.fieldCell.injEq, not_and]
              intro hpid hidx _
              exact ho (by cases oid; cases oid2; simp_all)
            simp [hc]
  | listItem lid2 i2 =>
    unfold resolveObjectStep
    rw [getObject_setValueNull_listItem]
    cases hObj : b.getObject oid with
    | none => simp
    | some o =>
      simp only [Option.some_bind, Option.map_some']
      cases hfp : field_position o edge with
      | none => simp
      | some pos =>
        simp only [Option.some_bind, Option.map_bind]
        cases hget : o[pos]? with
        | none => simp
        | some f => simp [cellOf]

theorem resolveListStep_setValueNull (b : ResponseBuilder) (vid : ResponseValueId)
    (lid : ResponseListId) (i : Nat) :
    resolveListStep (b.setValueNull vid) lid i =
      (resolveListStep b lid i).map fun s =>
        (s.fst, if cellOf s.fst = cellOf vid then ResponseValue.null else s.snd) := by
  cases vid with
  | objectField oid2 pos2 =>
    unfold resolveListStep
    rw [getListItem_setValueNull_objectField]
    cases hv : b.getListItem lid i with
    | none => rfl
    | some v => simp [cellOf]
  | listItem lid2 i2 =>
    unfold resolveListStep
    rw [getListItem_setValueNull_listItem]
    by_cases h : lid.part_id = lid2.part_id ∧ lid.offset + i = lid2.offset + i2
    · simp only [if_pos h]
      cases hv : b.getListItem lid i with
      | none => rfl
      | some v => simp [cellOf, h.1, h.2]
    · simp only [if_neg h]
      cases hv : b.getListItem lid i with
      | none => rfl
      | some v =>
        have hc : cellOf (ResponseValueId.listItem lid i) ≠
            cellOf (ResponseValueId.listItem lid2 i2) := by
          simp only [cellOf, ne_eq, CellAddr.itemCell.injEq, not_and]
          intro hpid hpos
          exact h ⟨hpid, hpos⟩
        simp [hc]

theorem resolveStep_setValueNull (b : ResponseBuilder) (vid : ResponseValueId)
    (prev : Cursor) (edge : ResponseEdge) :
    resolveStep (b.setValueNull vid) prev edge =
      (resolveStep b prev edge).map fun s =>
        (s.fst, if cellOf s.fst = cellOf vid then ResponseValue.null else s.snd) := by
  cases prev with
  | obj oid =>
    cases edge with
    | boundResponseKey k => exact resolveObjectStep_setValueNull b vid oid _
    | extraFieldResponseKey k => exact resolveObjectStep_setValueNull b vid oid _
    | index i => rfl
  | lst lid =>
    cases edge with
    | index i => exact resolveListStep_setValueNull b vid lid i
    | boundResponseKey k => rfl
    | extraFieldResponseKey k => rfl

theorem lastNullableOf_cons (s : ResponseValueId × ResponseValue)
    (t : List (ResponseValueId × ResponseValue)) (ln : Option ResponseValueId) :
    lastNullableOf (s :: t) ln =
      lastNullableOf t (if isNullableValue s.snd then some s.fst else ln) := by
  cases dt : deepestNullable t <;> cases h : isNullableValue s.snd <;>
    simp [lastNullableOf, deepestNullable, dt, h]

theorem walk_eq_walkTrace (b : ResponseBuilder) :
    ∀ (path : List ResponseEdge) (prev : Cursor) (ln : Option ResponseValueId),
      walk b prev path ln =
        match walkTrace b prev path with
        | none => .abort
        | some steps => .finish (lastNullableOf steps ln) := by
  intro path
  induction path with
  | nil => intro prev ln; simp [walk, walkTrace, lastNullableOf, deepestNullable]
  | cons edge rest ih =>
    intro prev ln
    simp only [walk, walkTrace]
    cases hr : resolveStep b prev edge with
    | none => simp
    | some s =>
      obtain ⟨id, v⟩ := s
      cases v with
      | null => simp
      | leaf payload => simp [lastNullableOf, deepestNullable, isNullableValue]
      | object nullable part_id idx =>
        simp only [reduceCtorEq, if_false]
        rw [ih]
        cases ht : walkTrace b (.obj ⟨part_id, idx⟩) rest with
        | none => simp
        | some t => cases nullable <;> simp [lastNullableOf_cons, isNullableValue]
      | list nullable part_id offset length =>
        simp only [reduceCtorEq, if_false]
        rw [ih]
        cases ht : walkTrace b (.lst ⟨part_id, offset, length⟩) rest with
        | none => simp
        | some t => cases nullable <;> simp [lastNullableOf_cons, isNullableValue]

theorem walk_setValueNull_abort (b : ResponseBuilder) (vid : ResponseValueId) :
    ∀ (path : List ResponseEdge) (prev : Cursor) (ln : Option ResponseValueId),
      walk b prev path ln = .finish (some vid) →
      ln = some vid ∨ ∀ ln2, walk (b.setValueNull vid) prev path ln2 = .abort := by
  intro path
  induction path with
  | nil =>
    intro prev ln h
    left
    simpa [walk] using h
  | cons edge rest ih =>
    intro prev ln h
    simp only [walk] at h
    cases hr : resolveStep b prev edge with
    | none => rw [hr] at h; simp at h
    | some s =>
      obtain ⟨id, v⟩ := s
      rw [hr] at h
      by_cases hcell : cellOf id = cellOf vid
      · right
        intro ln2
        simp only [walk, resolveStep_setValueNull, hr]
        simp [hcell]
      · cases v with
        | null => simp at h
        | leaf payload =>
          left
          simpa using h
        | object nullable part_id idx =>
          simp only [reduceCtorEq, if_false] at h
          rcases ih (.obj ⟨part_id, idx⟩) (if nullable then some id else ln) h with hln | habort
          · cases hn : nullable with
            | true =>
              rw [hn] at hln
              simp only [if_true] at hln
              exact absurd (by rw [Option.some_inj.mp hln]) hcell
            | false =>
              rw [hn] at hln
              simp only [Bool.false_eq_true, if_false] at hln
              exact Or.inl hln
          · right
            intro ln2
            simp only [walk, resolveStep_setValueNull, hr]
            simp [hcell, habort]
        | list nullable part_id offset length =>
          simp only [reduceCtorEq, if_false] at h
          rcases ih (.lst ⟨part_id, offset, length⟩) (if nullable then some id else ln) h with hln | habort
          · cases hn : nullable with
            | true =>
              rw [hn] at hln
              simp only [if_true] at hln
              exact absurd (by rw [Option.some_inj.mp hln]) hcell
            | false =>
              rw [hn] at hln
              simp only [Bool.false_eq_true, if_false] at hln
              exact Or.inl hln
          · right
            intro ln2
            simp only [walk, resolveStep_setValueNull, hr]
            simp [hcell, habort]

/-! ### Claim theorems -/

/-- C1 (amended): error propagation walks the recorded path from the root
collecting the traversed values; when the walk completes (path exhausted or
a scalar leaf reached) it replaces exactly the deepest traversed value
declared nullable with Null, and sets the builder's root to None when no
traversed value is nullable; when the walk stops early (an already-null
value or an unresolvable step on the path) the builder is left unchanged.
Stated as: the implementation equals the declarative trace-based
specification `propagate_error_spec`. -/
theorem propagate_error_matches_spec (b : ResponseBuilder) (path : List ResponseEdge) :
    propagate_error b path = propagate_error_spec b path := by
  cases hr : b.root with
  | none => unfold propagate_error propagate_error_spec; rw [hr]
  | some root =>
    obtain ⟨rootId, t⟩ := root
    have hw := walk_eq_walkTrace b path (.obj rootId) none
    unfold propagate_error propagate_error_spec
    cases ht : walkTrace b (.obj rootId) path with
    | none =>
      rw [ht] at hw
      simp [hr, hw, ht]
    | some steps =>
      rw [ht] at hw
      cases dn : deepestNullable steps with
      | none => simp [hr, hw, ht, lastNullableOf, dn]
      | some vid => simp [hr, hw, ht, lastNullableOf, dn]

/-- C1 counterexample: in `cexPropagateBuilder` the error path
`cexPropagatePath` has a deepest nullable ancestor (the root's field, a
nullable object that is not Null), yet `propagate_error` replaces nothing
and leaves the root intact, because the walk stops at the already-null value
at the end of the path. The claim as stated requires that nullable ancestor
to be replaced with Null. -/
theorem propagate_error_claim_counterexample :
    deepestNullable (claimTrace cexPropagateBuilder (.obj ⟨0, 0⟩) cexPropagatePath) =
        some (.objectField ⟨0, 0⟩ 0) ∧
    cexPropagateBuilder.valueAtId (.objectField ⟨0, 0⟩ 0) =
        some (ResponseValue.object true 0 1) ∧
    ResponseValue.object true 0 1 ≠ ResponseValue.null ∧
    propagate_error cexPropagateBuilder cexPropagatePath = cexPropagateBuilder ∧
    (propagate_error cexPropagateBuilder cexPropagatePath).root = some (⟨0, 0⟩, 7) :=
  ⟨rfl, rfl, by decide, rfl, rfl⟩

/-- C2: error propagation is idempotent: applying `propagate_error` a
second time with the same path to the same builder state leaves the tree
unchanged (first conjunct); and for any subsequent, possibly different,
error path whose deepest nullable ancestor is the slot the first
propagation already set to Null, `propagate_error` is a no-op on the
builder state (second conjunct). -/
theorem propagate_error_idempotent (b : ResponseBuilder) (p : List ResponseEdge) :
    propagate_error (propagate_error b p) p = propagate_error b p ∧
    (∀ (p2 : List ResponseEdge) (root : ResponseObjectId) (t : Nat) (vid : ResponseValueId)
        (steps1 steps2 : List (ResponseValueId × ResponseValue)),
      b.root = some (root, t) →
      walkTrace b (.obj root) p = some steps1 → deepestNullable steps1 = some vid →
      walkTrace b (.obj root) p2 = some steps2 → deepestNullable steps2 = some vid →
      propagate_error (propagate_error b p) p2 = propagate_error b p) := by
  constructor
  · cases hr : b.root with
    | none =>
      have h1 : propagate_error b p = b := by unfold propagate_error; rw [hr]
      rw [h1, h1]
    | some root =>
      obtain ⟨rootId, t⟩ := root
      cases hw : walk b (.obj rootId) p none with
      | abort =>
        have h1 : propagate_error b p = b := by unfold propagate_error; simp [hr, hw]
        rw [h1, h1]
      | finish ln =>
        cases ln with
        | none =>
          have h1 : propagate_error b p = { b with root := none } := by
            unfold propagate_error
            simp [hr, hw]
          rw [h1]
          unfold propagate_error
          rfl
        | some vid =>
          have h1 : propagate_error b p = b.setValueNull vid := by
            unfold propagate_error
            simp [hr, hw]
          rw [h1]
          rcases walk_setValueNull_abort b vid p (.obj rootId) none hw with hln | habort
          · exact absurd hln (by simp)
          · unfold propagate_error
            rw [setValueNull_root, hr]
            simp [habort none]
  · intro p2 root t vid steps1 steps2 hroot ht1 hd1 ht2 hd2
    have hw1 : walk b (.obj root) p none = .finish (some vid) := by
      rw [walk_eq_walkTrace, ht1]
      simp [lastNullableOf, hd1]
    have hw2 : walk b (.obj root) p2 none = .finish (some vid) := by
      rw [walk_eq_walkTrace, ht2]
      simp [lastNullableOf, hd2]
    have h1 : propagate_error b p = b.setValueNull vid := by
      unfold propagate_error
      simp [hroot, hw1]
    rw [h1]
    rcases walk_setValueNull_abort b vid p2 (.obj root) none hw2 with hln | habort
    · exact absurd hln (by simp)
    · unfold propagate_error
      rw [setValueNull_root, hroot]
      simp [habort none]

/-- C2 witness: in `cexSiblingBuilder`, the sibling error paths through
keys 1 and 2 share the root field (key 0) as deepest nullable ancestor; the
first propagation nulls it and the second, different path is then a no-op.
-/
theorem propagate_error_idempotent_witness :
    propagate_error
        (propagate_error cexSiblingBuilder
          [ResponseEdge.boundResponseKey 0, ResponseEdge.boundResponseKey 1])
        [ResponseEdge.boundResponseKey 0, ResponseEdge.boundResponseKey 2] =
      propagate_error cexSiblingBuilder
        [ResponseEdge.boundResponseKey 0, ResponseEdge.boundResponseKey 1] :=
  (propagate_error_idempotent cexSiblingBuilder
      [ResponseEdge.boundResponseKey 0, ResponseEdge.boundResponseKey 1]).2
    [ResponseEdge.boundResponseKey 0, ResponseEdge.boundResponseKey 2]
    ⟨0, 0⟩ 7 (.objectField ⟨0, 0⟩ 0)
    [(.objectField ⟨0, 0⟩ 0, ResponseValue.object true 0 1),
     (.objectField ⟨0, 1⟩ 0, ResponseValue.leaf 1)]
    [(.objectField ⟨0, 0⟩ 0, ResponseValue.object true 0 1),
     (.objectField ⟨0, 1⟩ 1, ResponseValue.leaf 2)]
    rfl rfl rfl rfl rfl

theorem updateSeedOnNullDataGo_all_nullable (rk : List String) (p : List ResponseEdge) :
    ∀ (fields : List CollectedField) (acc : List (ResponseEdge × ResponseValue)),
      (∀ f ∈ fields, f.required = false) →
      updateSeedOnNullDataGo rk p acc fields =
        .wroteFields (acc ++ fields.map fun f => (f.edge, ResponseValue.null)) := by
  intro fields
  induction fields with
  | nil => intro acc h; simp [updateSeedOnNullDataGo]
  | cons f fs ih =>
    intro acc h
    have hf : f.required = false := h f (by simp)
    simp only [updateSeedOnNullDataGo, hf, Bool.false_eq_true, if_false]
    rw [ih (acc ++ [(f.edge, ResponseValue.null)]) (fun g hg => h g (by simp [hg]))]
    simp

theorem updateSeedOnNullDataGo_first_required (rk : List String) (p : List ResponseEdge) :
    ∀ (pre : List CollectedField) (f : CollectedField) (post : List CollectedField)
      (acc : List (ResponseEdge × ResponseValue)),
      (∀ g ∈ pre, g.required = false) → f.required = true →
      updateSeedOnNullDataGo rk p acc (pre ++ f :: post) =
        .propagatedError
          { message := missing_field_error_message rk f, locations := [],
            path := some (p ++ [f.edge]), extensions := [] } := by
  intro pre
  induction pre with
  | nil =>
    intro f post acc hpre hf
    simp [updateSeedOnNullDataGo, hf]
  | cons g gs ih =>
    intro f post acc hpre hf
    have hg : g.required = false := hpre g (by simp)
    simp only [List.cons_append, updateSeedOnNullDataGo, hg, Bool.false_eq_true, if_false]
    exact ih f post _ (fun g2 hg2 => hpre g2 (by simp [hg2])) hf

/-- C3 (amended): when the upstream `data` value is null, the `Ok(None)`
branch of `UpdateSeed::deserialize` writes every field of the plan's root
selection set as Null when none is required; otherwise it records exactly
one "missing required field" GraphqlError — for the first required field in
collected order, at that field's path — propagation being triggered through
the update slot set to `Error` (which `ingest` turns into a
`propagate_error` run on the boundary object's path). -/
theorem updateSeed_nullData_contract (rk : List String) (p : List ResponseEdge) :
    (∀ fields : List CollectedField, (∀ f ∈ fields, f.required = false) →
        updateSeedOnNullData rk p fields =
          .wroteFields (fields.map fun f => (f.edge, ResponseValue.null))) ∧
    (∀ (pre : List CollectedField) (f : CollectedField) (post : List CollectedField),
        (∀ g ∈ pre, g.required = false) → f.required = true →
        updateSeedOnNullData rk p (pre ++ f :: post) =
          .propagatedError
            { message := missing_field_error_message rk f, locations := [],
              path := some (p ++ [f.edge]), extensions := [] } ∧
        outcomeSlot (updateSeedOnNullData rk p (pre ++ f :: post)) = .error) ∧
    (∀ (b : ResponseBuilder) (ref : ResponseObjectRef),
        applyUpdate b (.error, ref) = some (propagate_error b ref.path)) := by
  refine ⟨?_, ?_, ?_⟩
  · intro fields h
    simpa [updateSeedOnNullData] using
      updateSeedOnNullDataGo_all_nullable rk p fields [] h
  · intro pre f post hpre hf
    have h := updateSeedOnNullDataGo_first_required rk p pre f post [] hpre hf
    constructor
    · simpa [updateSeedOnNullData] using h
    · rw [updateSeedOnNullData, h]
      rfl
  · intro b ref
    rfl

/-- C3 witness: a selection set with a nullable field followed by a required
one produces the single error for the required field `b`. -/
theorem updateSeed_nullData_contract_witness :
    updateSeedOnNullData ["a", "b"] []
        [{ edge := .boundResponseKey 0, required := false, response_key := 0, expected_key := 0 },
         { edge := .boundResponseKey 1, required := true, response_key := 1, expected_key := 1 }] =
      .propagatedError
        { message := "Error decoding response from upstream: Missing required field named b",
          locations := [], path := some [ResponseEdge.boundResponseKey 1], extensions := [] } :=
  ((updateSeed_nullData_contract ["a", "b"] []).2.1
    [{ edge := .boundResponseKey 0, required := false, response_key := 0, expected_key := 0 }]
    { edge := .boundResponseKey 1, required := true, response_key := 1, expected_key := 1 }
    [] (by decide) rfl).1

/-- C3 counterexample: with two required fields only the first produces an
error; no error is recorded at the second required field's path, refuting
"for every non-nullable field ... a GraphqlError is recorded at that
field's path". -/
theorem updateSeed_nullData_claim_counterexample :
    (∀ f ∈ cexNullDataFields, f.required = true) ∧
    ¬ (∀ f ∈ cexNullDataFields, f.required = true →
        ∃ e ∈ outcomeErrors (updateSeedOnNullData ["a", "b"] [] cexNullDataFields),
          e.path = some ([] ++ [f.edge])) := by
  constructor
  · decide
  · intro h
    have h2 := h { edge := ResponseEdge.boundResponseKey 1, required := true,
                   response_key := 1, expected_key := 1 } (by decide) rfl
    revert h2
    decide

/-- C4: when the upstream `_entities` array holds more elements than there
are boundary objects to fill (and the in-range elements deserialize fine),
`EntitiesSeed::visit_seq` appends exactly one
"Received more entities than expected" error, drains the excess elements,
and completes successfully. -/
theorem entities_excess_single_error {α : Type} (seedOk : α → Bool) :
    ∀ (seeds : Nat) (xs : List α) (errors : List String),
      seeds < xs.length →
      (∀ x ∈ xs.take seeds, seedOk x = true) →
      entitiesVisitSeq seedOk seeds xs errors =
        (errors ++ ["Received more entities than expected"], Except.ok ()) := by
  intro seeds
  induction seeds with
  | zero =>
    intro xs errors hlen hok
    cases xs with
    | nil => simp at hlen
    | cons x xs2 => simp [entitiesVisitSeq]
  | succ n ih =>
    intro xs errors hlen hok
    cases xs with
    | nil => simp at hlen
    | cons x xs2 =>
      have hx : seedOk x = true := hok x (by simp)
      simp only [entitiesVisitSeq, hx, if_true]
      exact ih xs2 errors (by simpa using hlen)
        (fun y hy => hok y (by simp [List.take_succ_cons, hy]))

/-- C4 witness: one remaining boundary object, two upstream entities. -/
theorem entities_excess_single_error_witness :
    entitiesVisitSeq (fun _ : Nat => true) 1 [0, 1] [] =
      (["Received more entities than expected"], Except.ok ()) :=
  entities_excess_single_error (fun _ : Nat => true) 1 [0, 1] [] (by decide) (by decide)

theorem extLookup_btreeInsert_self (m : List (String × Json)) (k : String) (v : Json) :
    extLookup (btreeInsert m k v) k = some v := by
  induction m with
  | nil => simp [btreeInsert, extLookup]
  | cons kv rest ih =>
    obtain ⟨k0, v0⟩ := kv
    by_cases h1 : k < k0
    · simp [btreeInsert, extLookup, h1]
    · by_cases h2 : k = k0
      · simp [btreeInsert, extLookup, h1, h2]
      · have h3 : ¬(k0 = k) := fun hh => h2 hh.symm
        simp [btreeInsert, extLookup, h1, h2, h3, ih]

theorem extLookup_btreeInsert_other (m : List (String × Json)) (k k2 : String) (v : Json)
    (hne : k2 ≠ k) :
    extLookup (btreeInsert m k v) k2 = extLookup m k2 := by
  have hk : ¬(k = k2) := fun hh => hne hh.symm
  induction m with
  | nil => simp [btreeInsert, extLookup, hk]
  | cons kv rest ih =>
    obtain ⟨k0, v0⟩ := kv
    by_cases h1 : k < k0
    · simp [btreeInsert, extLookup, h1, hk]
    · by_cases h2 : k = k0
      · subst h2
        simp [btreeInsert, extLookup, h1, hk]
      · simp [btreeInsert, extLookup, h1, h2, ih]

theorem rewriteUpstreamError_facts (rk : List String) (e : SubgraphGraphqlError) :
    (rewriteUpstreamError rk e).message = "Upstream error: " ++ e.message ∧
    (rewriteUpstreamError rk e).path = RootErrorPathConverter.convert rk e.path ∧
    (e.locations.isNull = false →
      extLookup (rewriteUpstreamError rk e).extensions "upstream_locations" = some e.locations) ∧
    (e.extensions.isNull = false →
      extLookup (rewriteUpstreamError rk e).extensions "upstream_extensions" = some e.extensions) ∧
    ((RootErrorPathConverter.convert rk e.path).isSome = true →
      extLookup (rewriteUpstreamError rk e).extensions "upstream_path" = none) ∧
    (RootErrorPathConverter.convert rk e.path = none → e.path.isNull = false →
      extLookup (rewriteUpstreamError rk e).extensions "upstream_path" = some e.path) := by
  refine ⟨rfl, rfl, ?_, ?_, ?_, ?_⟩
  · intro hl
    simp only [rewriteUpstreamError, hl, Bool.false_eq_true, if_false]
    by_cases hpi : ((RootErrorPathConverter.convert rk e.path).isNone && !e.path.isNull) = true
    · by_cases hx : e.extensions.isNull = true
      · simp only [hpi, if_true, hx]
        rw [extLookup_btreeInsert_other _ _ _ _ (by decide), extLookup_btreeInsert_self]
      · simp only [hpi, if_true, hx, Bool.false_eq_true, if_false]
        rw [extLookup_btreeInsert_other _ _ _ _ (by decide),
          extLookup_btreeInsert_other _ _ _ _ (by decide), extLookup_btreeInsert_self]
    · by_cases hx : e.extensions.isNull = true
      · simp only [hpi, Bool.false_eq_true, if_false, hx, if_true]
        rw [extLookup_btreeInsert_self]
      · simp only [hpi, hx, Bool.false_eq_true, if_false]
        rw [extLookup_btreeInsert_other _ _ _ _ (by decide), extLookup_btreeInsert_self]
  · intro hx
    simp only [rewriteUpstreamError, hx, Bool.false_eq_true, if_false]
    rw [extLookup_btreeInsert_self]
  · intro hs
    have hpi : ((RootErrorPathConverter.convert rk e.path).isNone && !e.path.isNull) = false := by
      cases hc : RootErrorPathConverter.convert rk e.path with
      | none => rw [hc] at hs; simp at hs
      | some out => simp
    simp only [rewriteUpstreamError, hpi, Bool.false_eq_true, if_false]
    by_cases hl : e.locations.isNull = true
    · by_cases hx : e.extensions.isNull = true
      · simp [hl, hx, extLookup]
      · simp only [hl, if_true, hx, Bool.false_eq_true, if_false]
        rw [extLookup_btreeInsert_other _ _ _ _ (by decide)]
        simp [extLookup]
    · by_cases hx : e.extensions.isNull = true
      · simp only [hl, Bool.false_eq_true, if_false, hx, if_true]
        rw [extLookup_btreeInsert_other _ _ _ _ (by decide)]
        simp [extLookup]
      · simp only [hl, hx, Bool.false_eq_true, if_false]
        rw [extLookup_btreeInsert_other _ _ _ _ (by decide),
          extLookup_btreeInsert_other _ _ _ _ (by decide)]
        simp [extLookup]
  · intro hnone hnn
    have hpi : ((RootErrorPathConverter.convert rk e.path).isNone && !e.path.isNull) = true := by
      simp [hnone, hnn]
    simp only [rewriteUpstreamError, hpi, if_true]
    by_cases hl : e.locations.isNull = true
    · by_cases hx : e.extensions.isNull = true
      · simp only [hl, if_true, hx]
        rw [extLookup_btreeInsert_self]
      · simp only [hl, if_true, hx, Bool.false_eq_true, if_false]
        rw [extLookup_btreeInsert_other _ _ _ _ (by decide), extLookup_btreeInsert_self]
    · by_cases hx : e.extensions.isNull = true
      · simp only [hl, Bool.false_eq_true, if_false, hx, if_true]
        rw [extLookup_btreeInsert_self]
      · simp only [hl, hx, Bool.false_eq_true, if_false]
        rw [extLookup_btreeInsert_other _ _ _ _ (by decide), extLookup_btreeInsert_self]

/-- C5 (amended): every upstream error in the `errors` array is stored
locally with its message prefixed "Upstream error: ", its upstream locations
under extensions key "upstream_locations" when non-null, its upstream
extensions under "upstream_extensions" when non-null, and its local path set
to the translation of the upstream path (integral segments as list-index
edges, names resolving in the response-keys table as synthesized extra
edges); the upstream path itself is stored under "upstream_path" exactly
when it is non-null and does not fully translate — never when the
translation succeeded. -/
theorem upstream_errors_rewrite_contract (rk : List String) (errs : List SubgraphGraphqlError)
    (i : Nat) (e : SubgraphGraphqlError) (h : errs[i]? = some e) :
    (GraphqlErrorsSeed.deserialize rk errs).snd = errs.length ∧
    (GraphqlErrorsSeed.deserialize rk errs).fst[i]? = some (rewriteUpstreamError rk e) ∧
    ((rewriteUpstreamError rk e).message = "Upstream error: " ++ e.message ∧
     (rewriteUpstreamError rk e).path = RootErrorPathConverter.convert rk e.path ∧
     (e.locations.isNull = false →
       extLookup (rewriteUpstreamError rk e).extensions "upstream_locations" = some e.locations) ∧
     (e.extensions.isNull = false →
       extLookup (rewriteUpstreamError rk e).extensions "upstream_extensions" = some e.extensions) ∧
     ((RootErrorPathConverter.convert rk e.path).isSome = true →
       extLookup (rewriteUpstreamError rk e).extensions "upstream_path" = none) ∧
     (RootErrorPathConverter.convert rk e.path = none → e.path.isNull = false →
       extLookup (rewriteUpstreamError rk e).extensions "upstream_path" = some e.path)) :=
  ⟨rfl, by simp [GraphqlErrorsSeed.deserialize, List.getElem?_map, h],
   rewriteUpstreamError_facts rk e⟩

/-- C5 witness: an error with non-null locations and extensions and a fully
translating path keeps locations/extensions under `upstream_*` keys and has
no `upstream_path` key. -/
theorem upstream_errors_rewrite_contract_witness :
    (GraphqlErrorsSeed.deserialize ["a"]
        [{ message := "boom", locations := Json.arr [], path := Json.arr [Json.num 0],
           extensions := Json.obj [] }]).snd = 1 ∧
    extLookup (rewriteUpstreamError ["a"]
        { message := "boom", locations := Json.arr [], path := Json.arr [Json.num 0],
          extensions := Json.obj [] }).extensions "upstream_locations" = some (Json.arr []) ∧
    extLookup (rewriteUpstreamError ["a"]
        { message := "boom", locations := Json.arr [], path := Json.arr [Json.num 0],
          extensions := Json.obj [] }).extensions "upstream_path" = none :=
  ⟨(upstream_errors_rewrite_contract ["a"] _ 0 _ rfl).1,
   (upstream_errors_rewrite_contract ["a"]
      [{ message := "boom", locations := Json.arr [], path := Json.arr [Json.num 0],
         extensions := Json.obj [] }] 0 _ rfl).2.2.2.2.1 rfl,
   (upstream_errors_rewrite_contract ["a"]
      [{ message := "boom", locations := Json.arr [], path := Json.arr [Json.num 0],
         extensions := Json.obj [] }] 0 _ rfl).2.2.2.2.2.2.1 rfl⟩

/-- C5 counterexample: for an upstream error whose non-null path fully
resolves in the response-keys table, no "upstream_path" extension key is
stored, refuting "its upstream path stored under upstream_path when
non-null". -/
theorem upstream_errors_rewrite_claim_counterexample :
    cexResolvableUpstreamError.path.isNull = false ∧
    (rewriteUpstreamError ["a"] cexResolvableUpstreamError).path =
      some [ResponseEdge.extraFieldResponseKey 0] ∧
    extLookup (rewriteUpstreamError ["a"] cexResolvableUpstreamError).extensions
      "upstream_path" = none :=
  ⟨rfl, rfl, rfl⟩

/-- C6 (amended): for an upstream error whose path has a segment that does
not resolve, the error is retained with its message prefixed, its local path
is set to None (not to the resolved portion), and the entire upstream path
(not just the remainder) is stored under extensions key "upstream_path". -/
theorem unresolvable_path_contract (rk : List String) (e : SubgraphGraphqlError)
    (hconv : RootErrorPathConverter.convert rk e.path = none)
    (hnn : e.path.isNull = false) :
    (rewriteUpstreamError rk e).message = "Upstream error: " ++ e.message ∧
    (rewriteUpstreamError rk e).path = none ∧
    extLookup (rewriteUpstreamError rk e).extensions "upstream_path" = some e.path := by
  obtain ⟨hm, hp, _, _, _, hup⟩ := rewriteUpstreamError_facts rk e
  exact ⟨hm, by rw [hp, hconv], hup hconv hnn⟩

/-- C6 witness: the two-segment path whose second segment does not resolve.
-/
theorem unresolvable_path_contract_witness :
    (rewriteUpstreamError ["a"] cexUnresolvableUpstreamError).path = none ∧
    extLookup (rewriteUpstreamError ["a"] cexUnresolvableUpstreamError).extensions
        "upstream_path" = some (Json.arr [Json.str "a", Json.str "missing"]) :=
  ⟨(unresolvable_path_contract ["a"] cexUnresolvableUpstreamError rfl rfl).2.1,
   (unresolvable_path_contract ["a"] cexUnresolvableUpstreamError rfl rfl).2.2⟩

/-- C6 counterexample: the first segment of the path resolves (so the
"portion that resolved" is the non-empty `[extra 0]`), yet the stored local
path is None — not that portion — and the whole upstream path, not the
remainder `["missing"]`, lands in `extensions.upstream_path`. -/
theorem unresolvable_path_claim_counterexample :
    keyIndex ["a"] "a" = some 0 ∧
    (rewriteUpstreamError ["a"] cexUnresolvableUpstreamError).path = none ∧
    (some [ResponseEdge.extraFieldResponseKey 0] : Option (List ResponseEdge)) ≠ none ∧
    extLookup (rewriteUpstreamError ["a"] cexUnresolvableUpstreamError).extensions
        "upstream_path" = some (Json.arr [Json.str "a", Json.str "missing"]) ∧
    Json.arr [Json.str "a", Json.str "missing"] ≠ Json.arr [Json.str "missing"] :=
  ⟨rfl, rfl, by decide, rfl, by
    intro h
    injection h with h2
    have hlen := congrArg List.length h2
    simp at hlen⟩

theorem opCacheGet_insert_self (c : OpCache) (q : String) (op : Operation) :
    opCacheGet (opCacheInsert c q op) q = some op := by
  induction c with
  | nil => simp [opCacheInsert, opCacheGet]
  | cons kv rest ih =>
    obtain ⟨q0, op0⟩ := kv
    by_cases h : q0 = q
    · simp [opCacheInsert, opCacheGet, h]
    · simp [opCacheInsert, opCacheGet, h, ih]

/-- C7: a byte-for-byte cache hit returns the cached Operation without
running `prepare_operation` (zero prepare calls, cache untouched); a miss
runs it once and, on success, inserts the operation keyed by the exact query
text (insertion overwrites — last writer wins — so the lookup afterwards
finds it); a parse/bind failure returns the error and inserts nothing. -/
theorem cached_prepare_operation_contract (prepare : String → Except GraphqlError Operation)
    (cache : OpCache) (query : String) :
    (∀ op, opCacheGet cache query = some op →
        cached_prepare_operation prepare cache query = ⟨.ok op, cache, 0⟩) ∧
    (∀ op, opCacheGet cache query = none → prepare query = .ok op →
        cached_prepare_operation prepare cache query =
          ⟨.ok op, opCacheInsert cache query op, 1⟩ ∧
        opCacheGet (opCacheInsert cache query op) query = some op) ∧
    (∀ err, opCacheGet cache query = none → prepare query = .error err →
        cached_prepare_operation prepare cache query = ⟨.error err, cache, 1⟩) ∧
    (∀ (c : OpCache) (op : Operation), opCacheGet (opCacheInsert c query op) query = some op) := by
  refine ⟨?_, ?_, ?_, ?_⟩
  · intro op h
    unfold cached_prepare_operation
    rw [h]
  · intro op h hp
    refine ⟨?_, opCacheGet_insert_self cache query op⟩
    unfold cached_prepare_operation
    rw [h, hp]
  · intro err h hp
    unfold cached_prepare_operation
    rw [h, hp]
  · intro c op
    exact opCacheGet_insert_self c query op

/-- C7 witness: a hit, a successful miss, and a failing miss on concrete
caches. -/
theorem cached_prepare_operation_contract_witness :
    cached_prepare_operation (fun _ => .ok ⟨5⟩) [("q", ⟨1⟩)] "q" = ⟨.ok ⟨1⟩, [("q", ⟨1⟩)], 0⟩ ∧
    cached_prepare_operation (fun _ => .ok ⟨5⟩) [] "q" = ⟨.ok ⟨5⟩, [("q", ⟨5⟩)], 1⟩ ∧
    cached_prepare_operation
        (fun _ => .error { message := "parse error", locations := [], path := none, extensions := [] })
        [] "q" =
      ⟨.error { message := "parse error", locations := [], path := none, extensions := [] }, [], 1⟩ :=
  ⟨(cached_prepare_operation_contract (fun _ => .ok ⟨5⟩) [("q", ⟨1⟩)] "q").1 ⟨1⟩ rfl,
   ((cached_prepare_operation_contract (fun _ => .ok ⟨5⟩) [] "q").2.1 ⟨5⟩ rfl rfl).1,
   (cached_prepare_operation_contract
      (fun _ => .error { message := "parse error", locations := [], path := none, extensions := [] })
      [] "q").2.2.1 _ rfl rfl⟩

theorem propagateFieldError_noop :
    ∀ (frames : List FieldFrame) (st : SeedState), st.propagating_error = true →
      propagateFieldError st frames = st := by
  intro frames
  induction frames with
  | nil => intro st h; rfl
  | cons f fs ih =>
    intro st h
    have h1 : fieldSeedOnError st f = st := by simp [fieldSeedOnError, h]
    calc propagateFieldError st (f :: fs)
        = propagateFieldError (fieldSeedOnError st f) fs := rfl
      _ = propagateFieldError st fs := by rw [h1]
      _ = st := ih st h

/-- C8: when a field seed fails while the propagating-error flag is clear,
exactly one GraphqlError is appended, carrying the current response path
extended with the failing field's edge and the field's source locations, and
the flag is set; with the flag set, every enclosing `FieldSeed` observing
the same failure appends nothing, and the top-level `UpdateSeed` handler
only marks the update slot as `Error` without a further error. -/
theorem field_seed_single_error_per_failure (st : SeedState) (frame : FieldFrame)
    (frames : List FieldFrame) (ctx_path : List ResponseEdge) (message : String)
    (h : st.propagating_error = false) :
    (fieldSeedOnError st frame).propagating_error = true ∧
    (fieldSeedOnError st frame).errors = st.errors ++
      [{ message := frame.message, locations := frame.locations,
         path := some (frame.path ++ [frame.edge]), extensions := [] }] ∧
    propagateFieldError (fieldSeedOnError st frame) frames = fieldSeedOnError st frame ∧
    updateSeedOnError (fieldSeedOnError st frame) ctx_path message =
      (fieldSeedOnError st frame, .error) := by
  refine ⟨by simp [fieldSeedOnError, h], by simp [fieldSeedOnError, h], ?_, ?_⟩
  · exact propagateFieldError_noop frames _ (by simp [fieldSeedOnError, h])
  · simp [updateSeedOnError, fieldSeedOnError, h]

/-- C8 witness: an innermost failure with one enclosing seed frame appends a
single error and the enclosing frame adds nothing. -/
theorem field_seed_single_error_per_failure_witness :
    (fieldSeedOnError ⟨false, []⟩
        ⟨[], ResponseEdge.boundResponseKey 0, [⟨1, 3⟩], "invalid type: null"⟩).errors =
      [{ message := "invalid type: null", locations := [⟨1, 3⟩],
         path := some [ResponseEdge.boundResponseKey 0], extensions := [] }] ∧
    propagateFieldError
        (fieldSeedOnError ⟨false, []⟩
          ⟨[], ResponseEdge.boundResponseKey 0, [⟨1, 3⟩], "invalid type: null"⟩)
        [⟨[], ResponseEdge.boundResponseKey 1, [], "invalid type: null"⟩] =
      fieldSeedOnError ⟨false, []⟩
        ⟨[], ResponseEdge.boundResponseKey 0, [⟨1, 3⟩], "invalid type: null"⟩ :=
  ⟨(field_seed_single_error_per_failure ⟨false, []⟩
      ⟨[], ResponseEdge.boundResponseKey 0, [⟨1, 3⟩], "invalid type: null"⟩
      [⟨[], ResponseEdge.boundResponseKey 1, [], "invalid type: null"⟩] [] "m" rfl).2.1,
   (field_seed_single_error_per_failure ⟨false, []⟩
      ⟨[], ResponseEdge.boundResponseKey 0, [⟨1, 3⟩], "invalid type: null"⟩
      [⟨[], ResponseEdge.boundResponseKey 1, [], "invalid type: null"⟩] [] "m" rfl).2.2.1⟩

theorem applyUpdate_some_of_not_reserved (b : ResponseBuilder)
    (u : UpdateSlot × ResponseObjectRef) (h : u.fst ≠ UpdateSlot.reserved) :
    ∃ b2, applyUpdate b u = some b2 ∧ b2.errors = b.errors ∧
      b2.parts.length = b.parts.length := by
  obtain ⟨slot, ref⟩ := u
  cases slot with
  | reserved => exact absurd rfl h
  | fields fs =>
    exact ⟨_, rfl, rfl, by simp [ResponseBuilder.extendObject, length_modifyAt]⟩
  | error =>
    exact ⟨_, rfl, propagate_error_errors b ref.path, propagate_error_parts_length b ref.path⟩

theorem applyUpdates_some :
    ∀ (us : List (UpdateSlot × ResponseObjectRef)) (b : ResponseBuilder),
      (∀ u ∈ us, u.fst ≠ UpdateSlot.reserved) →
      ∃ b2, applyUpdates b us = some b2 ∧ b2.errors = b.errors ∧
        b2.parts.length = b.parts.length := by
  intro us
  induction us with
  | nil => intro b h; exact ⟨b, rfl, rfl, rfl⟩
  | cons u rest ih =>
    intro b h
    obtain ⟨b1, hb1, herr1, hlen1⟩ := applyUpdate_some_of_not_reserved b u (h u (by simp))
    obtain ⟨b2, hb2, herr2, hlen2⟩ := ih b1 (fun u2 hu2 => h u2 (by simp [hu2]))
    refine ⟨b2, ?_, herr2.trans herr1, hlen2.trans hlen1⟩
    simp [applyUpdates, hb1, hb2]

theorem applyErrorPaths_facts :
    ∀ (paths : List (List ResponseEdge)) (b : ResponseBuilder),
      (applyErrorPaths b paths).errors = b.errors ∧
      (applyErrorPaths b paths).parts.length = b.parts.length := by
  intro paths
  induction paths with
  | nil => intro b; exact ⟨rfl, rfl⟩
  | cons p ps ih =>
    intro b
    have hstep : applyErrorPaths b (p :: ps) = applyErrorPaths (propagate_error b p) ps := rfl
    rw [hstep]
    exact ⟨(ih _).1.trans (propagate_error_errors b p),
           (ih _).2.trans (propagate_error_parts_length b p)⟩

/-- C9: `ingest` fails (the `assert!` panics) when the reserved slot for the
part's id already holds data; when the slot is still empty and no update
slot is left reserved, it installs the part's data into that slot, appends
the part's errors to the builder's error list, applies every `UpdateSlot`
onto its root boundary object (extending the object on `Fields`, running
error propagation on `Error` — see `applyUpdate`), propagates every queued
error path, and returns the part's plan-boundary hand-offs. -/
theorem ingest_contract (b : ResponseBuilder) (part : ResponsePart) (res : ResponseDataPart)
    (hres : b.parts[part.data.id]? = some res) :
    (res.is_empty = false → ingest b part = none) ∧
    (res.is_empty = true →
      (∀ u ∈ part.updates.zip part.root_response_objects, u.fst ≠ UpdateSlot.reserved) →
      ∃ b2,
        applyUpdates (installPart b part) (part.updates.zip part.root_response_objects) =
          some b2 ∧
        ingest b part =
          some (applyErrorPaths b2 part.error_paths_to_propagate, part.plan_boundaries) ∧
        (applyErrorPaths b2 part.error_paths_to_propagate).errors = b.errors ++ part.errors ∧
        (applyErrorPaths b2 part.error_paths_to_propagate).parts.length = b.parts.length) := by
  constructor
  · intro hempty
    unfold ingest
    rw [hres]
    simp [hempty]
  · intro hempty hnores
    obtain ⟨b2, hb2, herr, hlen⟩ :=
      applyUpdates_some (part.updates.zip part.root_response_objects) (installPart b part) hnores
    refine ⟨b2, hb2, ?_, ?_, ?_⟩
    · unfold ingest
      rw [hres]
      simp [hempty, hb2]
    · exact ((applyErrorPaths_facts part.error_paths_to_propagate b2).1.trans herr).trans rfl
    · refine ((applyErrorPaths_facts part.error_paths_to_propagate b2).2.trans hlen).trans ?_
      simp [installPart, length_modifyAt]

/-- C9 witness: ingesting a delivered part into the empty reserved slot 1,
with one `Fields` update on the root boundary object. -/
theorem ingest_contract_witness :
    (ingest
        { root := some (⟨0, 0⟩, 0),
          parts := [⟨0, [[]], []⟩, ⟨1, [], []⟩],
          errors := [] }
        { data := ⟨1, [[(ResponseEdge.boundResponseKey 0, ResponseValue.leaf 1)]], []⟩,
          root_response_objects := [⟨⟨0, 0⟩, [], 0⟩],
          errors := [⟨"upstream boom", [], none, []⟩],
          updates := [UpdateSlot.fields [(ResponseEdge.boundResponseKey 0, ResponseValue.object false 1 0)]],
          error_paths_to_propagate := [],
          plan_boundaries := [(3, [])] }).isSome = true := by
  obtain ⟨b2, hb2, hing, herr, hlen⟩ :=
    (ingest_contract
      { root := some (⟨0, 0⟩, 0),
        parts := [⟨0, [[]], []⟩, ⟨1, [], []⟩],
        errors := [] }
      { data := ⟨1, [[(ResponseEdge.boundResponseKey 0, ResponseValue.leaf 1)]], []⟩,
        root_response_objects := [⟨⟨0, 0⟩, [], 0⟩],
        errors := [⟨"upstream boom", [], none, []⟩],
        updates := [UpdateSlot.fields [(ResponseEdge.boundResponseKey 0, ResponseValue.object false 1 0)]],
        error_paths_to_propagate := [],
        plan_boundaries := [(3, [])] }
      ⟨1, [], []⟩ rfl).2 rfl (by decide)
  rw [hing]
  rfl

/-- C10: the generic decode-failure GraphqlError (carrying the plan's root
error path) is appended only when the response part holds no previously
recorded error; otherwise the part's error list is left unchanged, both in
`report_error_if_no_others` itself and when a data seed fails inside
`InfaillibleNullableSeed` — so a generic decode error never appears
alongside a more precise one from the same part. -/
theorem report_error_if_no_others_contract (errors : List GraphqlError)
    (err_path : List ResponseEdge) (message : String) (e : String) (dataIsNull : Bool) :
    (errors.isEmpty = true →
      report_error_if_no_others errors err_path message =
        errors ++
          [{ message := message, locations := [], path := some err_path, extensions := [] }]) ∧
    (errors.isEmpty = false → report_error_if_no_others errors err_path message = errors) ∧
    (errors.isEmpty = false →
      InfaillibleNullableSeed.visit errors err_path dataIsNull (.error e) =
        (errors, dataIsNull)) ∧
    (errors.isEmpty = true →
      InfaillibleNullableSeed.visit errors err_path dataIsNull (.error e) =
        (errors ++
          [{ message := "Upstream data error: " ++ e, locations := [],
             path := some err_path, extensions := [] }], dataIsNull)) := by
  refine ⟨?_, ?_, ?_, ?_⟩ <;> intro h <;>
    simp [report_error_if_no_others, InfaillibleNullableSeed.visit, h]

/-- C10 witness: an empty part gains the generic error; a part with a more
precise error is left unchanged. -/
theorem report_error_if_no_others_contract_witness :
    report_error_if_no_others [] [ResponseEdge.boundResponseKey 0]
        "Error decoding response from upstream: oops" =
      [{ message := "Error decoding response from upstream: oops", locations := [],
         path := some [ResponseEdge.boundResponseKey 0], extensions := [] }] ∧
    report_error_if_no_others [⟨"precise", [], none, []⟩] [] "generic" =
      [⟨"precise", [], none, []⟩] :=
  ⟨(report_error_if_no_others_contract [] [ResponseEdge.boundResponseKey 0]
      "Error decoding response from upstream: oops" "x" true).1 rfl,
   (report_error_if_no_others_contract [⟨"precise", [], none, []⟩] [] "generic" "x" true).2.1 rfl⟩
